import Mathlib

/-!
# Auction dapp: formal model and verification

A shallow embedding of the auction decentralized application
(hardhat-auction-dapp): the on-chain Auction Engine (bidding, closure,
escrow), the presentation layer's transaction-error handling and
ether/wei unit conversion, and the faucet task.

The Solidity contract source is not part of the snapshot; the engine is
modelled from the specification (its state fields, operations, error kinds
and atomicity rules), while the Dapp component, the deploy script, the
faucet task and the contract tests are embedded from their JavaScript
sources directly.
-/

/-! ## The Auction Engine (spec-modelled) -/

/-- Modelled from the spec: the error kinds of the Auction Engine (§7 of the
specification; the Solidity contract source is absent from the snapshot). -/
inductive AuctionError where
  | NotActive
  | InsufficientBid
  | Unauthorized
  | AlreadyInitialized
  | RefundFailed
deriving DecidableEq, Repr

/-- Modelled from the spec: the Auction data model (§3). Identities
(addresses) are represented as naturals, currency amounts in the smallest
unit (wei) as naturals, `empty` identity fields as `none`. -/
structure Auction where
  description : String
  createdAt : Nat
  duration : Nat
  basePrice : Nat
  highestPrice : Nat
  highestBidder : Option Nat
  originalOwner : Nat
  newOwner : Option Nat
  isActive : Bool
deriving DecidableEq, Repr

/-- Modelled from the spec: the engine owns the auction record together with
the escrowed balance it currently holds (§3 invariants, §5 shared resource). -/
structure EngineState where
  auction : Auction
  held : Nat
deriving DecidableEq, Repr

/-- Modelled from the spec: `initialize(description, basePrice, duration,
originalOwner, now)` — sets all immutable fields, `highestPrice = 0`,
`highestBidder = empty`, `isActive = true`, `newOwner = empty` (§4.1); the
engine holds no funds yet. -/
def EngineState.init (description : String) (basePrice duration originalOwner now : Nat) :
    EngineState :=
  { auction :=
      { description := description
        createdAt := now
        duration := duration
        basePrice := basePrice
        highestPrice := 0
        highestBidder := none
        originalOwner := originalOwner
        newOwner := none
        isActive := true }
    held := 0 }

/-- Modelled from the spec: `placeBid(caller, amount)` (§4.1). The activity
check comes first (§8: after closure every mutating operation fails with
`NotActive`), then the two amount checks (`InsufficientBid`), then the
atomic refund-and-replace: if a previous highest bidder exists their escrow
is refunded (the environment's acceptance of that transfer is the
`refundOk` argument; a failed refund rejects the whole bid with
`RefundFailed`), and the new bid is recorded and escrowed. A rejected bid
returns the state unchanged. -/
def EngineState.placeBid (s : EngineState) (caller amount : Nat) (refundOk : Bool) :
    EngineState × Option AuctionError :=
  if !s.auction.isActive then
    (s, some .NotActive)
  else if amount ≤ s.auction.basePrice then
    (s, some .InsufficientBid)
  else if amount ≤ s.auction.highestPrice then
    (s, some .InsufficientBid)
  else
    match s.auction.highestBidder with
    | some _ =>
        if refundOk then
          ({ auction := { s.auction with highestBidder := some caller, highestPrice := amount }
             held := s.held + amount - s.auction.highestPrice }, none)
        else
          (s, some .RefundFailed)
    | none =>
        ({ auction := { s.auction with highestBidder := some caller, highestPrice := amount }
           held := s.held + amount }, none)

/-- Modelled from the spec: `closeAuction(caller)` (§4.1) — only the
original owner may close an active auction; closure records
`newOwner = highestBidder` and releases the whole escrow to the owner. -/
def EngineState.closeAuction (s : EngineState) (caller : Nat) :
    EngineState × Option AuctionError :=
  if !s.auction.isActive then
    (s, some .NotActive)
  else if caller ≠ s.auction.originalOwner then
    (s, some .Unauthorized)
  else
    ({ auction := { s.auction with isActive := false, newOwner := s.auction.highestBidder }
       held := s.held - s.auction.highestPrice }, none)

/-- A mutating request submitted to the engine: a bid (with the
environment's answer to the refund transfer) or a closure attempt. -/
inductive Op where
  | bid (caller amount : Nat) (refundOk : Bool)
  | close (caller : Nat)
deriving DecidableEq, Repr

/-- Apply one mutating request; a rejected request leaves the state as the
operation returned it (unchanged). -/
def EngineState.applyOp (s : EngineState) : Op → EngineState
  | .bid c a r => (s.placeBid c a r).1
  | .close c => (s.closeAuction c).1

/-- Run a sequence of mutating requests in submission order. -/
def EngineState.run : EngineState → List Op → EngineState
  | s, [] => s
  | s, op :: ops => EngineState.run (s.applyOp op) ops

/-- The chronological list of `(caller, amount)` of the accepted bids in a
request sequence starting from `s`. -/
def EngineState.acceptedBids : EngineState → List Op → List (Nat × Nat)
  | _, [] => []
  | s, .bid c a r :: ops =>
      if (s.placeBid c a r).2 = none then
        (c, a) :: EngineState.acceptedBids (s.applyOp (.bid c a r)) ops
      else
        EngineState.acceptedBids (s.applyOp (.bid c a r)) ops
  | s, .close c :: ops => EngineState.acceptedBids (s.applyOp (.close c)) ops

/-- The states reachable from a freshly initialized auction (the `initialize`
preconditions `basePrice > 0`, `duration > 0` assumed) by any sequence of
mutating requests. -/
def Reachable (s : EngineState) : Prop :=
  ∃ (d : String) (bp dur own now : Nat) (ops : List Op),
    0 < bp ∧ 0 < dur ∧ s = (EngineState.init d bp dur own now).run ops

/-- The escrow-accounting invariant maintained by the engine: an auction
with no bidder yet has `highestPrice = 0`, and the held balance is the
current `highestPrice` while the auction is active and `0` once the escrow
has been released by closure. -/
def EscrowInv (s : EngineState) : Prop :=
  (s.auction.highestBidder = none → s.auction.highestPrice = 0) ∧
  s.held = (if s.auction.isActive then s.auction.highestPrice else 0)

/-! ## The ethers unit conversions (external library collaborator) -/

/-- The semantics of `ethers.utils.parseEther`: a base-currency (ether)
amount becomes a smallest-unit (wei) amount by the fixed factor `10^18`.
Amounts are modelled as exact rationals. -/
def parseEther (amount : ℚ) : ℚ := amount * 10 ^ 18

/-- The semantics of `ethers.utils.formatEther`: a smallest-unit (wei)
amount is converted back to ether by the same fixed factor. -/
def formatEther (wei : ℚ) : ℚ := wei / 10 ^ 18

/-! ## The Dapp presentation layer (embedded from Dapp.js) -/

/-- An error value thrown by the wallet/provider or constructed by the
Dapp; `code` is the numeric RPC error code when one is present. -/
structure JsError where
  code : Option Int
  message : String
deriving DecidableEq, Repr

/-- The error code indicating that the user canceled a transaction
(Dapp.js line 93). -/
def ERROR_CODE_TX_REJECTED_BY_USER : Int := 4001

/-- The part of the Dapp component state touched by `_bid` and
`_stopAuction` (Dapp.js constructor state, lines 116–117). -/
structure DappTxState where
  txBeingSent : Option String
  transactionError : Option JsError
deriving DecidableEq, Repr

/-- The environment's outcome for a mutating transaction submitted by the
Dapp: either the send call throws (which includes the user declining in
the wallet, code 4001), or the transaction is mined with a receipt status
(`0` meaning the engine rejected the operation once mined). -/
inductive SendOutcome where
  | sendError (e : JsError)
  | mined (txHash : String) (status : Nat)
deriving DecidableEq, Repr

/-- The generic error the Dapp throws on a mined receipt with status 0:
`new Error("Transaction failed")` (Dapp.js lines 296–300). -/
def minedFailureError : JsError := { code := none, message := "Transaction failed" }

/-- Embedding of `Dapp._bid` (Dapp.js lines 264–321), restricted to its
state effects: dismiss any previous transaction error, send the
transaction and record its hash in `txBeingSent`, throw on a status-0
receipt; the catch branch ignores a user rejection (code 4001) and stores
any other error in `transactionError`; the `finally` branch always clears
`txBeingSent`. -/
def Dapp.bidRun (st : DappTxState) (outcome : SendOutcome) : DappTxState :=
  let st1 : DappTxState := { st with transactionError := none }
  match outcome with
  | .sendError e =>
      if e.code = some ERROR_CODE_TX_REJECTED_BY_USER then
        { st1 with txBeingSent := none }
      else
        { st1 with transactionError := some e, txBeingSent := none }
  | .mined h status =>
      let st2 : DappTxState := { st1 with txBeingSent := some h }
      if status = 0 then
        { st2 with transactionError := some minedFailureError, txBeingSent := none }
      else
        { st2 with txBeingSent := none }

/-- Embedding of `Dapp._stopAuction` (Dapp.js lines 326–370): the same
send/wait/catch/finally error handling as `_bid`, for the `stopAuction`
call. -/
def Dapp.stopAuctionRun (st : DappTxState) (outcome : SendOutcome) : DappTxState :=
  let st1 : DappTxState := { st with transactionError := none }
  match outcome with
  | .sendError e =>
      if e.code = some ERROR_CODE_TX_REJECTED_BY_USER then
        { st1 with txBeingSent := none }
      else
        { st1 with transactionError := some e, txBeingSent := none }
  | .mined h status =>
      let st2 : DappTxState := { st1 with txBeingSent := some h }
      if status = 0 then
        { st2 with transactionError := some minedFailureError, txBeingSent := none }
      else
        { st2 with txBeingSent := none }

/-- Embedding of the render fragment at Dapp.js lines 601–606: the
`TransactionErrorMessage` component is rendered exactly when
`transactionError` is set. -/
def Dapp.showsTransactionErrorMessage (st : DappTxState) : Bool :=
  st.transactionError.isSome

/-- Outcomes the Dapp surfaces as failures: any thrown error other than
the user's own wallet rejection (code 4001), and any mined transaction
whose receipt status is 0. A non-zero receipt status is a success. -/
def SendOutcome.isSurfacedFailure : SendOutcome → Bool
  | .sendError e => !(e.code == some ERROR_CODE_TX_REJECTED_BY_USER)
  | .mined _ status => status == 0

/-- Embedding of the value attached to a bid transaction (Dapp.js lines
286–288): the user-entered ether amount converted by `parseEther`. -/
def Dapp.bidTxValue (amount : ℚ) : ℚ := parseEther amount

/-- Embedding of the rendered base price (Dapp.js line 514): the engine's
smallest-unit integer formatted by `formatEther`. -/
def Dapp.displayBasePrice (basePrice : ℚ) : ℚ := formatEther basePrice

/-- Embedding of the rendered highest price (Dapp.js line 522). -/
def Dapp.displayHighestPrice (highestPrice : ℚ) : ℚ := formatEther highestPrice

/-! ## Deployment (deploy.js, test fixture) and the faucet task -/

/-- One ether in the smallest unit (wei). -/
def ONE_ETHER : Nat := 10 ^ 18

/-- Modelled from the spec: the deployed contract's fixed description and
duration. `Auction.sol` is absent from the snapshot and its constructor
takes no arguments (deploy.js line 31, test fixture line 33), so these
values are constants baked into the missing source; they are not
observable in the available files and the concrete values here are
arbitrary. -/
def deployedDescription : String := "auction item"

/-- Modelled from the spec: the fixed auction duration baked into the
missing constructor (see `deployedDescription`). -/
def deployedDuration : Nat := 3600

/-- Modelled from the spec: deployment of the Auction contract via
`Auction.deploy()` with no arguments (deploy.js lines 30–32, test fixture
lines 25–39). The deployer identity and the block timestamp are ambient
transaction context rather than constructor arguments. The missing
constructor is reconstructed from the test suite, which expects a fresh
deployment to be active (test lines 47–58) with a base price of
`parseEther("1")` (test lines 60–65). -/
def deployAuction (deployer now : Nat) : EngineState :=
  EngineState.init deployedDescription ONE_ETHER deployedDuration deployer now

/-- A value transfer submitted to the network. -/
structure EthTx where
  sender : Nat
  receiver : Nat
  value : Nat
deriving DecidableEq, Repr

/-- Embedding of the faucet task (hardhat.config `task("faucet")`): it
takes the first configured signer and sends `parseEther("5")` wei to the
given receiver address; with no configured signer no transaction can be
built. -/
def faucetTx (signers : List Nat) (receiver : Nat) : Option EthTx :=
  match signers with
  | [] => none
  | sender :: _ => some { sender := sender, receiver := receiver, value := 5 * ONE_ETHER }

/-- The ledger effect of a mined value transfer: the sender must hold the
value, which is debited from the sender and credited to the receiver. -/
def EthTx.apply (tx : EthTx) (balances : Nat → Nat) : Option (Nat → Nat) :=
  if tx.value ≤ balances tx.sender then
    some (fun a =>
      (if a = tx.sender then balances a - tx.value else balances a) +
      (if a = tx.receiver then tx.value else 0))
  else
    none

/-- A concrete closed engine state used below: a fresh auction with base
price 1 that received an accepted bid of 2 from bidder 7 and was then
closed by its owner 0. -/
def closedExample : EngineState :=
  (EngineState.init "item" 1 60 0 0).run [.bid 7 2 true, .close 0]

/-- A concrete active engine state used below: a fresh auction with base
price 1 after an accepted bid of 2 from bidder 7. -/
def activeExample : EngineState :=
  (EngineState.init "item" 1 60 0 0).run [.bid 7 2 true]

/-- A concrete closed engine state used below: a fresh auction with base
price 1 closed by its owner 0 before any bid. -/
def closedNoBid : EngineState :=
  ((EngineState.init "item" 1 60 0 0).closeAuction 0).1

/-! ## Case characterizations of the two mutating operations -/

theorem EngineState.placeBid_spec (s : EngineState) (c a : Nat) (r : Bool) :
    (s.auction.isActive = false ∧ s.placeBid c a r = (s, some .NotActive)) ∨
    (s.auction.isActive = true ∧ (a ≤ s.auction.basePrice ∨ a ≤ s.auction.highestPrice) ∧
      s.placeBid c a r = (s, some .InsufficientBid)) ∨
    (s.auction.isActive = true ∧ s.auction.basePrice < a ∧ s.auction.highestPrice < a ∧
      s.auction.highestBidder ≠ none ∧ r = false ∧
      s.placeBid c a r = (s, some .RefundFailed)) ∨
    (s.auction.isActive = true ∧ s.auction.basePrice < a ∧ s.auction.highestPrice < a ∧
      s.auction.highestBidder ≠ none ∧ r = true ∧
      s.placeBid c a r =
        ({ auction := { s.auction with highestBidder := some c, highestPrice := a }
           held := s.held + a - s.auction.highestPrice }, none)) ∨
    (s.auction.isActive = true ∧ s.auction.basePrice < a ∧ s.auction.highestPrice < a ∧
      s.auction.highestBidder = none ∧
      s.placeBid c a r =
        ({ auction := { s.auction with highestBidder := some c, highestPrice := a }
           held := s.held + a }, none)) := by
  unfold EngineState.placeBid
  split
  next hact => exact Or.inl ⟨by simpa using hact, rfl⟩
  next hact =>
    split
    next h1 => exact Or.inr (Or.inl ⟨by simpa using hact, Or.inl h1, rfl⟩)
    next h1 =>
      split
      next h2 => exact Or.inr (Or.inl ⟨by simpa using hact, Or.inr h2, rfl⟩)
      next h2 =>
        split
        next b heq =>
          split
          next hr =>
            exact Or.inr (Or.inr (Or.inr (Or.inl
              ⟨by simpa using hact, by omega, by omega, by simp [heq], hr, rfl⟩)))
          next hr =>
            exact Or.inr (Or.inr (Or.inl
              ⟨by simpa using hact, by omega, by omega, by simp [heq],
               by simpa using hr, rfl⟩))
        next heq =>
          exact Or.inr (Or.inr (Or.inr (Or.inr
            ⟨by simpa using hact, by omega, by omega, heq, rfl⟩)))

theorem EngineState.closeAuction_spec (s : EngineState) (c : Nat) :
    (s.auction.isActive = false ∧ s.closeAuction c = (s, some .NotActive)) ∨
    (s.auction.isActive = true ∧ c ≠ s.auction.originalOwner ∧
      s.closeAuction c = (s, some .Unauthorized)) ∨
    (s.auction.isActive = true ∧ c = s.auction.originalOwner ∧
      s.closeAuction c =
        ({ auction := { s.auction with isActive := false, newOwner := s.auction.highestBidder }
           held := s.held - s.auction.highestPrice }, none)) := by
  unfold EngineState.closeAuction
  split
  next hact => exact Or.inl ⟨by simpa using hact, rfl⟩
  next hact =>
    split
    next h1 => exact Or.inr (Or.inl ⟨by simpa using hact, h1, rfl⟩)
    next h1 => exact Or.inr (Or.inr ⟨by simpa using hact, by simpa using h1, rfl⟩)

/-! ## Basic lemmas about the engine operations -/

theorem EngineState.placeBid_of_not_active (s : EngineState) (c a : Nat) (r : Bool)
    (h : s.auction.isActive = false) : s.placeBid c a r = (s, some .NotActive) := by
  rcases s.placeBid_spec c a r with ⟨_, he⟩ | ⟨ha, _, _⟩ | ⟨ha, _⟩ | ⟨ha, _⟩ | ⟨ha, _⟩ <;>
    first | exact he | rw [h] at ha; cases ha

theorem EngineState.closeAuction_of_not_active (s : EngineState) (c : Nat)
    (h : s.auction.isActive = false) : s.closeAuction c = (s, some .NotActive) := by
  rcases s.closeAuction_spec c with ⟨_, he⟩ | ⟨ha, _, _⟩ | ⟨ha, _⟩ <;>
    first | exact he | rw [h] at ha; cases ha

theorem EngineState.placeBid_rejected (s : EngineState) (c a : Nat) (r : Bool)
    (h : ((s.placeBid c a r).2).isSome) : (s.placeBid c a r).1 = s := by
  rcases s.placeBid_spec c a r with ⟨_, he⟩ | ⟨_, _, he⟩ | ⟨_, _, _, _, _, he⟩
    | ⟨_, _, _, _, _, he⟩ | ⟨_, _, _, _, he⟩ <;> rw [he] at h ⊢ <;> simp_all

theorem EngineState.closeAuction_rejected (s : EngineState) (c : Nat)
    (h : ((s.closeAuction c).2).isSome) : (s.closeAuction c).1 = s := by
  rcases s.closeAuction_spec c with ⟨_, he⟩ | ⟨_, _, he⟩ | ⟨_, _, he⟩ <;>
    (rw [he] at h ⊢; try simp_all)

theorem EngineState.applyOp_of_not_active (s : EngineState) (op : Op)
    (h : s.auction.isActive = false) : s.applyOp op = s := by
  cases op with
  | bid c a r => show (s.placeBid c a r).1 = s; rw [s.placeBid_of_not_active c a r h]
  | close c => show (s.closeAuction c).1 = s; rw [s.closeAuction_of_not_active c h]

theorem EngineState.run_of_not_active (s : EngineState) (ops : List Op)
    (h : s.auction.isActive = false) : s.run ops = s := by
  induction ops with
  | nil => rfl
  | cons op ops ih =>
      show (s.applyOp op).run ops = s
      rw [s.applyOp_of_not_active op h]
      exact ih

theorem EngineState.applyOp_highestPrice_le (s : EngineState) (op : Op) :
    s.auction.highestPrice ≤ (s.applyOp op).auction.highestPrice := by
  cases op with
  | bid c a r =>
      show s.auction.highestPrice ≤ ((s.placeBid c a r).1).auction.highestPrice
      rcases s.placeBid_spec c a r with ⟨_, he⟩ | ⟨_, _, he⟩ | ⟨_, _, _, _, _, he⟩
        | ⟨_, h2, h3, _, _, he⟩ | ⟨_, h2, h3, _, he⟩ <;> rw [he] <;> simp <;> omega
  | close c =>
      show s.auction.highestPrice ≤ ((s.closeAuction c).1).auction.highestPrice
      rcases s.closeAuction_spec c with ⟨_, he⟩ | ⟨_, _, he⟩ | ⟨_, _, he⟩
      all_goals rw [he]

theorem EngineState.run_highestPrice_le (s : EngineState) (ops : List Op) :
    s.auction.highestPrice ≤ (s.run ops).auction.highestPrice := by
  induction ops generalizing s with
  | nil => exact Nat.le_refl _
  | cons op ops ih =>
      exact Nat.le_trans (s.applyOp_highestPrice_le op) (ih (s.applyOp op))

theorem EngineState.run_append (s : EngineState) (l1 l2 : List Op) :
    s.run (l1 ++ l2) = (s.run l1).run l2 := by
  induction l1 generalizing s with
  | nil => rfl
  | cons op ops ih => exact ih (s.applyOp op)

theorem EngineState.placeBid_accepted (s : EngineState) (c a : Nat) (r : Bool)
    (h : (s.placeBid c a r).2 = none) :
    ((s.placeBid c a r).1).auction.highestBidder = some c ∧
    ((s.placeBid c a r).1).auction.highestPrice = a := by
  rcases s.placeBid_spec c a r with ⟨_, he⟩ | ⟨_, _, he⟩ | ⟨_, _, _, _, _, he⟩
    | ⟨_, _, _, _, _, he⟩ | ⟨_, _, _, _, he⟩ <;> (rw [he] at h ⊢; try simp_all)

theorem EngineState.closeAuction_bid_fields (s : EngineState) (c : Nat) :
    ((s.closeAuction c).1).auction.highestBidder = s.auction.highestBidder ∧
    ((s.closeAuction c).1).auction.highestPrice = s.auction.highestPrice := by
  rcases s.closeAuction_spec c with ⟨_, he⟩ | ⟨_, _, he⟩ | ⟨_, _, he⟩ <;>
    (rw [he]; try simp_all)

theorem EngineState.run_lastAccepted (ops : List Op) : ∀ s : EngineState,
    (s.run ops).auction.highestBidder =
      ((s.acceptedBids ops).getLast?).elim s.auction.highestBidder (fun p => some p.1) ∧
    (s.run ops).auction.highestPrice =
      ((s.acceptedBids ops).getLast?).elim s.auction.highestPrice Prod.snd := by
  induction ops with
  | nil =>
      intro s
      exact ⟨rfl, rfl⟩
  | cons op ops ih =>
      intro s
      cases op with
      | close c =>
          have hrun : s.run (.close c :: ops) = ((s.closeAuction c).1).run ops := rfl
          have hacc : s.acceptedBids (.close c :: ops)
              = ((s.closeAuction c).1).acceptedBids ops := rfl
          rw [hrun, hacc]
          obtain ⟨ihb, ihp⟩ := ih ((s.closeAuction c).1)
          obtain ⟨hb, hp⟩ := s.closeAuction_bid_fields c
          cases hL : (((s.closeAuction c).1).acceptedBids ops).getLast? with
          | none =>
              rw [hL] at ihb ihp
              simp only [Option.elim_none] at ihb ihp ⊢
              exact ⟨ihb.trans hb, ihp.trans hp⟩
          | some p => rw [hL] at ihb ihp; exact ⟨ihb, ihp⟩
      | bid c a r =>
          by_cases hok : (s.placeBid c a r).2 = none
          · have hrun : s.run (.bid c a r :: ops) = ((s.placeBid c a r).1).run ops := rfl
            have hacc : s.acceptedBids (.bid c a r :: ops)
                = (c, a) :: ((s.placeBid c a r).1).acceptedBids ops := by
              simp [EngineState.acceptedBids, EngineState.applyOp, hok]
            rw [hrun, hacc]
            obtain ⟨ihb, ihp⟩ := ih ((s.placeBid c a r).1)
            obtain ⟨hb, hp⟩ := s.placeBid_accepted c a r hok
            cases hL2 : (((s.placeBid c a r).1).acceptedBids ops) with
            | nil =>
                rw [hL2] at ihb ihp
                simp only [List.getLast?_singleton, Option.elim_some]
                simp only [List.getLast?, Option.elim_none] at ihb ihp
                exact ⟨ihb.trans hb, ihp.trans hp⟩
            | cons q L =>
                rw [hL2] at ihb ihp
                rw [List.getLast?_cons_cons]
                cases hL : (q :: L).getLast? with
                | none => exact absurd (by simp at hL) (fun h2 => h2)
                | some p => rw [hL] at ihb ihp; exact ⟨ihb, ihp⟩
          · have hst : (s.placeBid c a r).1 = s := by
              refine s.placeBid_rejected c a r ?_
              cases h2 : (s.placeBid c a r).2 with
              | none => exact absurd h2 hok
              | some e => simp
            have hrun : s.run (.bid c a r :: ops) = ((s.placeBid c a r).1).run ops := rfl
            have hacc : s.acceptedBids (.bid c a r :: ops)
                = ((s.placeBid c a r).1).acceptedBids ops := by
              simp [EngineState.acceptedBids, EngineState.applyOp, hok]
            rw [hrun, hacc, hst]
            exact ih s

/-! ## The escrow invariant is preserved along every run -/

theorem escrowInv_init (d : String) (bp dur own now : Nat) :
    EscrowInv (EngineState.init d bp dur own now) :=
  ⟨fun _ => rfl, rfl⟩

theorem escrowInv_applyOp (s : EngineState) (op : Op) (h : EscrowInv s) :
    EscrowInv (s.applyOp op) := by
  obtain ⟨h1, h2⟩ := h
  cases op with
  | bid c a r =>
      show EscrowInv (s.placeBid c a r).1
      rcases s.placeBid_spec c a r with ⟨_, he⟩ | ⟨_, _, he⟩ | ⟨_, _, _, _, _, he⟩
        | ⟨hact, hbp, hhp, hbid, hr, he⟩ | ⟨hact, hbp, hhp, hbid, he⟩
      · rw [he]; exact ⟨h1, h2⟩
      · rw [he]; exact ⟨h1, h2⟩
      · rw [he]; exact ⟨h1, h2⟩
      · rw [he]
        refine ⟨by simp, ?_⟩
        rw [hact] at h2
        simp only [hact, if_true] at h2 ⊢
        omega
      · rw [he]
        refine ⟨by simp, ?_⟩
        have hz : s.auction.highestPrice = 0 := h1 hbid
        rw [hact] at h2
        simp only [hact, if_true] at h2 ⊢
        omega
  | close c =>
      show EscrowInv (s.closeAuction c).1
      rcases s.closeAuction_spec c with ⟨_, he⟩ | ⟨_, _, he⟩ | ⟨hact, _, he⟩
      · rw [he]; exact ⟨h1, h2⟩
      · rw [he]; exact ⟨h1, h2⟩
      · rw [he]
        refine ⟨h1, ?_⟩
        rw [hact] at h2
        simp only [if_true, Bool.false_eq_true, if_false] at h2 ⊢
        omega

theorem escrowInv_run (s : EngineState) (ops : List Op) (h : EscrowInv s) :
    EscrowInv (s.run ops) := by
  induction ops generalizing s with
  | nil => exact h
  | cons op ops ih => exact ih (s.applyOp op) (escrowInv_applyOp s op h)

theorem escrowInv_reachable (s : EngineState) (h : Reachable s) : EscrowInv s := by
  obtain ⟨d, bp, dur, own, now, ops, _, _, rfl⟩ := h
  exact escrowInv_run _ ops (escrowInv_init d bp dur own now)

/-! ## Claim theorems -/

/-- C1: for every sequence of mutating requests applied to an initialized
auction, `highestPrice` starts at 0 and never decreases across the run,
and `highestBidder` is exactly the caller of the most recently accepted
bid (empty while no bid has been accepted). -/
theorem highestPrice_monotone_and_lastAcceptedBidder
    (d : String) (bp dur own now : Nat) :
    (EngineState.init d bp dur own now).auction.highestPrice = 0 ∧
    (∀ pre suf : List Op,
      ((EngineState.init d bp dur own now).run pre).auction.highestPrice ≤
        ((EngineState.init d bp dur own now).run (pre ++ suf)).auction.highestPrice) ∧
    (∀ ops : List Op,
      ((EngineState.init d bp dur own now).run ops).auction.highestBidder =
        (((EngineState.init d bp dur own now).acceptedBids ops).getLast?).elim
          none (fun p => some p.1)) := by
  refine ⟨rfl, ?_, ?_⟩
  · intro pre suf
    rw [EngineState.run_append]
    exact EngineState.run_highestPrice_le _ suf
  · intro ops
    exact (EngineState.run_lastAccepted ops (EngineState.init d bp dur own now)).1

/-- C2 counterexample: the state reached by initializing with base price 1,
accepting a bid of 2 and then closing is reachable, yet its held balance
(0, the escrow was paid to the owner) differs from its frozen
`highestPrice` (2): the claimed equality fails for reachable closed
states. -/
theorem closed_state_held_ne_highestPrice :
    Reachable closedExample ∧ closedExample.held ≠ closedExample.auction.highestPrice :=
  ⟨⟨"item", 1, 60, 0, 0, [.bid 7 2 true, .close 0], by decide, by decide, rfl⟩, by decide⟩

/-- C2 (amended): in every reachable state in which the auction is still
active, the engine's held balance equals `highestPrice` exactly —
`placeBid` refunds the superseded bidder in the same atomic step, so no
stale escrow accumulates; once the auction is closed the escrow has been
released to the owner. -/
theorem reachable_active_held_eq_highestPrice (s : EngineState)
    (h : Reachable s) (hact : s.auction.isActive = true) :
    s.held = s.auction.highestPrice := by
  have h2 := (escrowInv_reachable s h).2
  rw [hact] at h2
  simpa using h2

/-- C2 witness: a reachable active state with one accepted bid. -/
theorem reachable_active_held_eq_highestPrice_witness :
    activeExample.held = activeExample.auction.highestPrice :=
  reachable_active_held_eq_highestPrice activeExample
    ⟨"item", 1, 60, 0, 0, [.bid 7 2 true], by decide, by decide, rfl⟩ (by decide)

/-- C3: every rejected mutating operation — a `placeBid` or a
`closeAuction` returning any error, `RefundFailed` included — leaves the
entire engine state unchanged; there is no partial update. -/
theorem rejected_mutation_leaves_state_unchanged
    (s : EngineState) (c a c2 : Nat) (r : Bool) :
    (((s.placeBid c a r).2).isSome → (s.placeBid c a r).1 = s) ∧
    (((s.closeAuction c2).2).isSome → (s.closeAuction c2).1 = s) :=
  ⟨s.placeBid_rejected c a r, s.closeAuction_rejected c2⟩

/-- C3 witness: on a closed auction both operations are rejected and leave
the state unchanged. -/
theorem rejected_mutation_leaves_state_unchanged_witness :
    ((closedExample.placeBid 5 3 true).1 = closedExample) ∧
    ((closedExample.closeAuction 5).1 = closedExample) :=
  ⟨(rejected_mutation_leaves_state_unchanged closedExample 5 3 5 true).1 (by decide),
   (rejected_mutation_leaves_state_unchanged closedExample 5 3 5 true).2 (by decide)⟩

/-- C4: once `closeAuction` succeeds the auction is terminal: `isActive`
is false, every later request sequence leaves the state — hence every
readable field — unchanged (so `isActive` never becomes true again), and
every subsequent `placeBid` or `closeAuction` fails with `NotActive`. -/
theorem closeAuction_terminal (s s' : EngineState) (c : Nat)
    (h : s.closeAuction c = (s', none)) :
    s'.auction.isActive = false ∧
    (∀ ops : List Op, s'.run ops = s') ∧
    (∀ c2 a r, s'.placeBid c2 a r = (s', some .NotActive)) ∧
    (∀ c2, s'.closeAuction c2 = (s', some .NotActive)) := by
  have hinact : s'.auction.isActive = false := by
    rcases s.closeAuction_spec c with ⟨_, he⟩ | ⟨_, _, he⟩ | ⟨_, _, he⟩ <;>
      (rw [he] at h; injection h with h1 h2)
    · exact Option.noConfusion h2
    · exact Option.noConfusion h2
    · rw [← h1]
  exact ⟨hinact, fun ops => EngineState.run_of_not_active s' ops hinact,
    fun c2 a r => s'.placeBid_of_not_active c2 a r hinact,
    fun c2 => s'.closeAuction_of_not_active c2 hinact⟩

/-- C4 witness: closing a fresh auction succeeds and yields a terminal
state on which a later bid and a later closure both fail with
`NotActive` and change nothing. -/
theorem closeAuction_terminal_witness :
    closedNoBid.auction.isActive = false ∧
    closedNoBid.run [.bid 3 5 true] = closedNoBid ∧
    closedNoBid.placeBid 3 5 true = (closedNoBid, some .NotActive) ∧
    closedNoBid.closeAuction 0 = (closedNoBid, some .NotActive) :=
  ⟨(closeAuction_terminal (EngineState.init "item" 1 60 0 0) closedNoBid 0 rfl).1,
   (closeAuction_terminal (EngineState.init "item" 1 60 0 0) closedNoBid 0 rfl).2.1
     [.bid 3 5 true],
   (closeAuction_terminal (EngineState.init "item" 1 60 0 0) closedNoBid 0 rfl).2.2.1 3 5 true,
   (closeAuction_terminal (EngineState.init "item" 1 60 0 0) closedNoBid 0 rfl).2.2.2 0⟩

/-- C5 counterexample: on a closed auction a bid whose amount (1) is at
most the base price fails with `NotActive`, not `InsufficientBid`, so the
claimed equivalence is false for inactive states. -/
theorem placeBid_insufficientBid_iff_fails_when_closed :
    ¬ (((closedExample.placeBid 5 1 true).2 = some .InsufficientBid) ↔
        (1 ≤ closedExample.auction.basePrice ∨ 1 ≤ closedExample.auction.highestPrice)) := by
  decide

/-- C5 (amended): for every **active** auction state and every caller,
`placeBid(caller, amount)` fails with `InsufficientBid` iff
`amount ≤ basePrice` or `amount ≤ highestPrice` (so every accepted bid
strictly exceeds both); on a closed auction the failure is `NotActive`
instead. -/
theorem placeBid_insufficientBid_iff (s : EngineState) (c a : Nat) (r : Bool)
    (hact : s.auction.isActive = true) :
    (s.placeBid c a r).2 = some .InsufficientBid ↔
      (a ≤ s.auction.basePrice ∨ a ≤ s.auction.highestPrice) := by
  rcases s.placeBid_spec c a r with ⟨hf, he⟩ | ⟨_, hc, he⟩ | ⟨_, h2, h3, _, _, he⟩
    | ⟨_, h2, h3, _, _, he⟩ | ⟨_, h2, h3, _, he⟩ <;> rw [he]
  · rw [hact] at hf; cases hf
  · simpa using hc
  · constructor
    · intro hx
      exact AuctionError.noConfusion (Option.some.inj hx)
    · intro hx
      exact absurd hx (by omega)
  · constructor
    · intro hx
      exact Option.noConfusion hx
    · intro hx
      exact absurd hx (by omega)
  · constructor
    · intro hx
      exact Option.noConfusion hx
    · intro hx
      exact absurd hx (by omega)

/-- C5 witness: on a fresh active auction with base price 1, a bid of 1 is
rejected as `InsufficientBid`, matching the equivalence. -/
theorem placeBid_insufficientBid_iff_witness :
    ((EngineState.init "item" 1 60 0 0).placeBid 5 1 true).2 = some .InsufficientBid ↔
      (1 ≤ (EngineState.init "item" 1 60 0 0).auction.basePrice ∨
       1 ≤ (EngineState.init "item" 1 60 0 0).auction.highestPrice) :=
  placeBid_insufficientBid_iff (EngineState.init "item" 1 60 0 0) 5 1 true rfl

/-- C6: the presentation layer surfaces every failing mutating operation
(bid or stopAuction) through `transactionError`, which the render shows as
a user-visible message, and it distinguishes the caller's own wallet
rejection (error code 4001: no `transactionError` is set, no message shown)
from every other failure, including an engine rejection reported by a
status-0 receipt; the classification is a pure function of the thrown
error's code in the Dapp, not of anything the engine reports. -/
theorem dapp_surfaces_failures_distinguishing_user_rejection
    (st : DappTxState) (e : JsError) (txh : String) (status : Nat) :
    ((Dapp.bidRun st (.sendError e)).transactionError =
      (if e.code = some ERROR_CODE_TX_REJECTED_BY_USER then none else some e)) ∧
    ((Dapp.bidRun st (.mined txh status)).transactionError =
      (if status = 0 then some minedFailureError else none)) ∧
    (Dapp.showsTransactionErrorMessage (Dapp.bidRun st (.sendError e)) =
      (SendOutcome.sendError e).isSurfacedFailure) ∧
    (Dapp.showsTransactionErrorMessage (Dapp.bidRun st (.mined txh status)) =
      (SendOutcome.mined txh status).isSurfacedFailure) ∧
    ((Dapp.stopAuctionRun st (.sendError e)).transactionError =
      (if e.code = some ERROR_CODE_TX_REJECTED_BY_USER then none else some e)) ∧
    ((Dapp.stopAuctionRun st (.mined txh status)).transactionError =
      (if status = 0 then some minedFailureError else none)) ∧
    (Dapp.showsTransactionErrorMessage (Dapp.stopAuctionRun st (.sendError e)) =
      (SendOutcome.sendError e).isSurfacedFailure) ∧
    (Dapp.showsTransactionErrorMessage (Dapp.stopAuctionRun st (.mined txh status)) =
      (SendOutcome.mined txh status).isSurfacedFailure) := by
  refine ⟨?_, ?_, ?_, ?_, ?_, ?_, ?_, ?_⟩ <;>
    simp only [Dapp.bidRun, Dapp.stopAuctionRun, Dapp.showsTransactionErrorMessage,
      SendOutcome.isSurfacedFailure] <;>
    split <;>
    simp_all

/-- C7: the Dapp converts the user-entered ether amount to the engine's
smallest unit via `parseEther` before invoking `bid`, and formats
`basePrice`/`highestPrice` back to display units via `formatEther`; both
directions are the fixed `10^18` unit conversion and are mutually
inverse. -/
theorem dapp_unit_conversion (amount basePrice highestPrice : ℚ) :
    Dapp.bidTxValue amount = amount * 10 ^ 18 ∧
    Dapp.displayBasePrice basePrice * 10 ^ 18 = basePrice ∧
    Dapp.displayHighestPrice highestPrice * 10 ^ 18 = highestPrice ∧
    formatEther (parseEther amount) = amount ∧
    parseEther (formatEther highestPrice) = highestPrice := by
  refine ⟨rfl, ?_, ?_, ?_, ?_⟩ <;>
    simp only [Dapp.displayBasePrice, Dapp.displayHighestPrice, parseEther, formatEther] <;>
    field_simp

/-- C8: immediately after `initialize`, the auction is active, the highest
price is 0, the highest bidder is empty and the new owner is empty; the
engine holds nothing in escrow. -/
theorem init_auction_fields (d : String) (bp dur own now : Nat) :
    (EngineState.init d bp dur own now).auction.isActive = true ∧
    (EngineState.init d bp dur own now).auction.highestPrice = 0 ∧
    (EngineState.init d bp dur own now).auction.highestBidder = none ∧
    (EngineState.init d bp dur own now).auction.newOwner = none ∧
    (EngineState.init d bp dur own now).held = 0 :=
  ⟨rfl, rfl, rfl, rfl, rfl⟩

/-- C9: the Auction contract's constructor takes no caller-supplied
arguments (deployer and timestamp are ambient transaction context), and
every freshly deployed instance has a base price of exactly 1 ether —
`10^18` smallest units, the value `parseEther("1")` the test compares
against — and is active. -/
theorem deploy_basePrice_one_ether (deployer now : Nat) :
    (deployAuction deployer now).auction.basePrice = ONE_ETHER ∧
    ONE_ETHER = 10 ^ 18 ∧
    ((ONE_ETHER : ℚ) = parseEther 1) ∧
    (deployAuction deployer now).auction.isActive = true := by
  refine ⟨rfl, rfl, ?_, rfl⟩
  simp [parseEther, ONE_ETHER]
  norm_num

/-- C10: every successful faucet invocation builds a transfer of exactly
5 ether (`parseEther("5")` smallest units) from the first configured
signer to the given receiver — independent of the receiver, the other
signers and every ledger balance — and applying that transfer moves
exactly that amount from sender to receiver. -/
theorem faucet_transfers_five_ether (sender : Nat) (rest : List Nat)
    (receiver : Nat) (balances : Nat → Nat) :
    faucetTx (sender :: rest) receiver =
      some { sender := sender, receiver := receiver, value := 5 * ONE_ETHER } ∧
    ((5 * ONE_ETHER : ℚ) = parseEther 5) ∧
    (receiver ≠ sender → 5 * ONE_ETHER ≤ balances sender →
      ∃ newBal,
        EthTx.apply { sender := sender, receiver := receiver, value := 5 * ONE_ETHER }
          balances = some newBal ∧
        newBal receiver = balances receiver + 5 * ONE_ETHER ∧
        newBal sender = balances sender - 5 * ONE_ETHER) := by
  refine ⟨rfl, ?_, ?_⟩
  · simp [parseEther, ONE_ETHER]
    norm_num
  · intro hne hle
    refine ⟨fun a =>
      (if a = sender then balances a - 5 * ONE_ETHER else balances a) +
      (if a = receiver then 5 * ONE_ETHER else 0), ?_, ?_, ?_⟩
    · simp [EthTx.apply, hle]
    · simp [hne]
    · simp [Ne.symm hne]

/-- C10 witness: a concrete ledger where the single signer 0 holds
10 ether and sends 5 ether to receiver 1. -/
theorem faucet_transfers_five_ether_witness :
    faucetTx [0] 1 = some { sender := 0, receiver := 1, value := 5 * ONE_ETHER } ∧
    (∃ newBal,
      EthTx.apply { sender := 0, receiver := 1, value := 5 * ONE_ETHER }
        (fun _ => 10 * ONE_ETHER) = some newBal ∧
      newBal 1 = (fun _ : Nat => 10 * ONE_ETHER) 1 + 5 * ONE_ETHER ∧
      newBal 0 = (fun _ : Nat => 10 * ONE_ETHER) 0 - 5 * ONE_ETHER) :=
  ⟨(faucet_transfers_five_ether 0 [] 1 (fun _ => 10 * ONE_ETHER)).1,
   (faucet_transfers_five_ether 0 [] 1 (fun _ => 10 * ONE_ETHER)).2.2
     (by decide) (by norm_num [ONE_ETHER])⟩
